import Mathlib

/-!
The base SQL driver of go-lucene: `Render` and `serialize`.

A shallow embedding of `pkg/driver/base.go`.  The driver walks an expression
tree produced by the Lucene parser, serializes the two operands of every node
and hands the two strings to the render function that the operator table
holds for the node's operator.

Conventions of the embedding:

* a Go `string` is a Lean `String` (valid UTF-8 text);
* a Go `error` is `Option Error`, `none` being the nil error, and a Go result
  `(string, error)` is the pair `String × Option Error`;
* a call either returns such a pair or panics (`Outcome`); the only panic of
  `base.go` is the dereference of a nil `*expr.RangeBoundary`;
* a Go pointer `*expr.Expression` or `*expr.RangeBoundary` is an `Option`,
  `none` being the nil pointer;
* a Go map is the lookup function it induces, `none` meaning "no entry";
* an operand of dynamic type `any` is a value of the sum type `Operand`, one
  constructor for each dynamic type the type switch of `serialize` tells apart.
-/

namespace strings

/-- Go `strings.Contains(s, substr)`: some suffix of `s` starts with `substr`. -/
def Contains (s substr : String) : Bool :=
  s.data.tails.any (fun t => substr.data.isPrefixOf t)

/-- Go `strings.Join(elems, sep)`. -/
def Join (elems : List String) (sep : String) : String :=
  sep.intercalate elems

end strings

namespace expr

/-- The operators that `base.go` names (`expr.Literal`, `expr.And`, ...,
including the two that only occur in the commented-out entries of `Shared`). -/
inductive Operator where
  | Literal | And | Or | Not | Equals | Range | Must | MustNot | Fuzzy | Boost
  | Wild | Regexp | Like | Greater | GreaterEq | Less | LessEq | In | List
  deriving DecidableEq, Repr

/-- Modelled from the spec: the `expr` package, which declares `Operator` and
the text that the `%s` verb prints for it, is not among the sources.  This
instance gives every operator the name the spec's enumeration uses.  `Render`
takes the naming as a parameter, so the general theorems hold for every
naming; this one is used to evaluate concrete trees. -/
def Operator.String : Operator → String
  | .Literal => "Literal" | .And => "And" | .Or => "Or" | .Not => "Not"
  | .Equals => "Equals" | .Range => "Range" | .Must => "Must"
  | .MustNot => "MustNot" | .Fuzzy => "Fuzzy" | .Boost => "Boost"
  | .Wild => "Wild" | .Regexp => "Regexp" | .Like => "Like"
  | .Greater => "Greater" | .GreaterEq => "GreaterEq" | .Less => "Less"
  | .LessEq => "LessEq" | .In => "In" | .List => "List"

/-- Modelled from the spec: `expr.RangeBoundary` is declared in the `expr`
package, which is not among the sources.  `serialize` reads the three fields
`Min`, `Max` and `Inclusive`, and interpolates the bounds with the `%s` verb;
the two bounds are kept here as the text that `%s` prints for them. -/
structure RangeBoundary where
  Min : String
  Max : String
  Inclusive : Bool
  deriving DecidableEq, Repr

mutual

/-- The node `expr.Expression`: the fields `Left`, `Op` and `Right` that
`Render` reads. -/
inductive Expression where
  | mk (Left : Operand) (Op : Operator) (Right : Operand)

/-- An operand (Go `any`), by dynamic type, as the type switch of `serialize`
sees it.  `nil` is the nil interface; `expr none` is a nil `*expr.Expression`
stored in the interface; `exprs` is a `[]*expr.Expression`, whose elements may
be nil; `range` is a `*expr.RangeBoundary`, `range none` being the nil pointer
of that type stored in the interface; `column` is an `expr.Column`; `str` is a
`string`; `int` and `bool` are the scalars that reach the `default` case. -/
inductive Operand where
  | nil
  | expr (v : Option Expression)
  | exprs (v : List (Option Expression))
  | range (v : Option RangeBoundary)
  | column (v : String)
  | str (v : String)
  | int (v : Int)
  | bool (v : Bool)

end

/-- Field `Left` of a node. -/
def Expression.Left : Expression → Operand
  | .mk l _ _ => l

/-- Field `Op` of a node. -/
def Expression.Op : Expression → Operator
  | .mk _ op _ => op

/-- Field `Right` of a node. -/
def Expression.Right : Expression → Operand
  | .mk _ _ r => r

end expr

namespace driver

open expr

/-- A Go error value, identified with its message. -/
structure Error where
  msg : String
  deriving DecidableEq, Repr

/-- What a call of `Render` or `serialize` does: it returns a string and an
error, or it panics. -/
inductive Outcome where
  | returns (res : String × Option Error)
  | panics
  deriving DecidableEq, Repr

/-- The type `RenderFN`: two serialized operands in, `(string, error)` out. -/
abbrev RenderFN := String → String → String × Option Error

/-- The struct `Base`: the operator table of a driver. -/
structure Base where
  RenderFNs : Operator → Option RenderFN

mutual

/-- The method `Base.Render`.  The named result `s` is never assigned, so the
three early `return s, err` statements return the empty string.  `opString`
is the text that `%s` prints for an operator.  A panic of `serialize` unwinds
through `Render`. -/
def Render (opString : Operator → String) (b : Base) :
    Option Expression → Outcome
  | none => .returns ("", none)
  | some (.mk l op r) =>
    match serialize opString b l with
    | .panics => .panics
    | .returns (_, some err) => .returns ("", some err)
    | .returns (left, none) =>
      match serialize opString b r with
      | .panics => .panics
      | .returns (_, some err) => .returns ("", some err)
      | .returns (right, none) =>
        match b.RenderFNs op with
        | none =>
          .returns ("", some ⟨"unable to render operator [" ++ opString op ++ "]"⟩)
        | some fn => .returns (fn left right)

/-- The method `Base.serialize`: the nil check followed by the type switch.
A nil `*expr.RangeBoundary` stored in the operand is not the nil interface, so
it passes `in == nil` and reaches `v.Inclusive`, which panics. -/
def serialize (opString : Operator → String) (b : Base) :
    Operand → Outcome
  | .nil => .returns ("", none)
  | .expr v => Render opString b v
  | .exprs v => serializeElems opString b v []
  | .range none => .panics
  | .range (some v) =>
    if v.Inclusive then .returns ("[" ++ v.Min ++ ", " ++ v.Max ++ "]", none)
    else .returns ("(" ++ v.Min ++ ", " ++ v.Max ++ ")", none)
  | .column v =>
    if strings.Contains v " " then .returns ("\"" ++ v ++ "\"", none)
    else .returns (v, none)
  | .str v => .returns ("'" ++ v ++ "'", none)
  | .int v => .returns (toString v, none)
  | .bool v => .returns (toString v, none)

/-- The `for _, e := range v` loop of the `[]*expr.Expression` case, with the
slice `strs` built so far as accumulator, and the `strings.Join` after it. -/
def serializeElems (opString : Operator → String) (b : Base) :
    List (Option Expression) → List String → Outcome
  | [], strs => .returns (strings.Join strs ", ", none)
  | e :: es, strs =>
    match Render opString b e with
    | .panics => .panics
    | .returns (s, some err) => .returns (s, some err)
    | .returns (s, none) => serializeElems opString b es (strs ++ [s])

end

/-- A driver with an empty operator table. -/
def emptyDriver : Base := ⟨fun _ => none⟩

/-- A driver whose only entry, for `Literal`, hands back its left operand
together with an error. -/
def failingDriver : Base :=
  ⟨fun op => if op = .Literal then some (fun l _ => (l, some ⟨"not translatable"⟩)) else none⟩

/-- A driver with five entries, none of which ever fails: `Literal` and
`List` hand back the left operand, `Equals` renders `l = r`, `And` renders
`l AND r` and `In` renders `l IN (r)`. -/
def sampleDriver : Base :=
  ⟨fun op =>
    match op with
    | .Literal => some (fun l _ => (l, none))
    | .List => some (fun l _ => (l, none))
    | .Equals => some (fun l r => (l ++ " = " ++ r, none))
    | .And => some (fun l r => (l ++ " AND " ++ r, none))
    | .In => some (fun l r => (l ++ " IN (" ++ r ++ ")", none))
    | _ => none⟩

/-- An operand of a single-level tree: nil, a range boundary, a column or a
scalar, not a sub-expression and not a sequence of sub-expressions. -/
def isLeaf : Operand → Bool
  | .expr _ => false
  | .exprs _ => false
  | _ => true

/-- The operand is a nil `*expr.RangeBoundary`. -/
def isNilRange : Operand → Bool
  | .range none => true
  | _ => false

mutual

/-- Some operand of the tree, at some depth, is a nil `*expr.RangeBoundary`. -/
def nilRangeIn : Option Expression → Bool
  | none => false
  | some (.mk l _ r) => nilRangeBelow l || nilRangeBelow r

/-- The operand is a nil `*expr.RangeBoundary` or has one below it. -/
def nilRangeBelow : Operand → Bool
  | .range none => true
  | .expr v => nilRangeIn v
  | .exprs v => nilRangeAmong v
  | _ => false

/-- Some tree of the sequence has a nil `*expr.RangeBoundary` operand. -/
def nilRangeAmong : List (Option Expression) → Bool
  | [] => false
  | e :: es => nilRangeIn e || nilRangeAmong es

end

mutual

/-- The operators of all the nodes of a tree, at every depth. -/
def operatorsOf : Option Expression → List Operator
  | none => []
  | some (.mk l op r) => op :: (operandOperators l ++ operandOperators r)

/-- The operators of all the nodes below an operand. -/
def operandOperators : Operand → List Operator
  | .expr v => operatorsOf v
  | .exprs v => elemsOperators v
  | _ => []

/-- The operators of all the nodes of the trees of a sequence. -/
def elemsOperators : List (Option Expression) → List Operator
  | [] => []
  | e :: es => operatorsOf e ++ elemsOperators es

end

/-- Where an error `err` can come from, given the operators `ops` of a tree:
it is the unsupported-operator error of an operator of the tree that is absent
from the table, or an error that the render function of an operator of the
tree returned. -/
def ErrorOrigin (opString : Operator → String) (b : Base) (ops : List Operator)
    (err : Error) : Prop :=
  (∃ op ∈ ops, b.RenderFNs op = none ∧
      err = ⟨"unable to render operator [" ++ opString op ++ "]"⟩) ∨
  (∃ op ∈ ops, ∃ fn l r t, b.RenderFNs op = some fn ∧ fn l r = (t, some err))

/-- Modelled from the spec: the render functions that the table `Shared`
names (`literal`, `basicCompound`, `basicWrap`, `equals`, `rang`, `noop`,
`like`, `greater`, `greaterEq`, `less`, `lessEq`, `inFn`, `list`) are defined
in another file of the package, which is not among the sources.  By the spec
each is a pure function from two serialized operands to `(string, error)`,
`basicCompound` and `basicWrap` being parameterized by an operator; they are
taken here as a parameter of `Shared`. -/
structure RenderFuncs where
  literal : RenderFN
  basicCompound : Operator → RenderFN
  basicWrap : Operator → RenderFN
  equals : RenderFN
  rang : RenderFN
  noop : RenderFN
  like : RenderFN
  greater : RenderFN
  greaterEq : RenderFN
  less : RenderFN
  lessEq : RenderFN
  inFn : RenderFN
  list : RenderFN

/-- The map literal `Shared`, entry by entry; the entries for `Fuzzy` and
`Boost` are commented out in the source. -/
def Shared (f : RenderFuncs) : Operator → Option RenderFN
  | .Literal => some f.literal
  | .And => some (f.basicCompound .And)
  | .Or => some (f.basicCompound .Or)
  | .Not => some (f.basicWrap .Not)
  | .Equals => some f.equals
  | .Range => some f.rang
  | .Must => some f.noop
  | .MustNot => some (f.basicWrap .Not)
  | .Fuzzy => none
  | .Boost => none
  | .Wild => some f.noop
  | .Regexp => some f.noop
  | .Like => some f.like
  | .Greater => some f.greater
  | .GreaterEq => some f.greaterEq
  | .Less => some f.less
  | .LessEq => some f.lessEq
  | .In => some f.inFn
  | .List => some f.list

/-- A render function that writes down its own call: `name(l, r)`. -/
def echo (name : String) : RenderFN :=
  fun l r => (name ++ "(" ++ l ++ ", " ++ r ++ ")", none)

/-- An instance of the render functions used to evaluate concrete trees with
`Shared`: every function writes down its own name and its two arguments, so
that the rendered text shows which entry was called on which strings. -/
def echoFuncs : RenderFuncs where
  literal := echo "literal"
  basicCompound := fun op => echo ("basicCompound[" ++ op.String ++ "]")
  basicWrap := fun op => echo ("basicWrap[" ++ op.String ++ "]")
  equals := echo "equals"
  rang := echo "rang"
  noop := echo "noop"
  like := echo "like"
  greater := echo "greater"
  greaterEq := echo "greaterEq"
  less := echo "less"
  lessEq := echo "lessEq"
  inFn := echo "inFn"
  list := echo "list"

/-- The seventeen operators that have an entry in `Shared`. -/
def sharedOperators : List Operator :=
  [.Literal, .And, .Or, .Not, .Equals, .Range, .Must, .MustNot, .Wild, .Regexp,
   .Like, .Greater, .GreaterEq, .Less, .LessEq, .In, .List]

/-- The loop of the `[]*expr.Expression` case over a renderer of the elements
that may run out of stack (`none`). -/
def loopElems (render : Option Expression → Option Outcome) :
    List (Option Expression) → List String → Option Outcome
  | [], strs => some (.returns (strings.Join strs ", ", none))
  | e :: es, strs =>
    match render e with
    | none => none
    | some .panics => some .panics
    | some (.returns (s, some err)) => some (.returns (s, some err))
    | some (.returns (s, none)) => loopElems render es (strs ++ [s])

mutual

/-- The method `Base.Render` run with a stack of at most `n` nested calls of
`Render` and `serialize`: `none` when a call would exceed it. -/
def RenderWithin (opString : Operator → String) (b : Base) :
    Nat → Option Expression → Option Outcome
  | 0, _ => none
  | _ + 1, none => some (.returns ("", none))
  | n + 1, some (.mk l op r) =>
    match serializeWithin opString b n l with
    | none => none
    | some .panics => some .panics
    | some (.returns (_, some err)) => some (.returns ("", some err))
    | some (.returns (left, none)) =>
      match serializeWithin opString b n r with
      | none => none
      | some .panics => some .panics
      | some (.returns (_, some err)) => some (.returns ("", some err))
      | some (.returns (right, none)) =>
        match b.RenderFNs op with
        | none =>
          some (.returns
            ("", some ⟨"unable to render operator [" ++ opString op ++ "]"⟩))
        | some fn => some (.returns (fn left right))

/-- The method `Base.serialize` run with a stack of at most `n` nested calls. -/
def serializeWithin (opString : Operator → String) (b : Base) :
    Nat → Operand → Option Outcome
  | 0, _ => none
  | _ + 1, .nil => some (.returns ("", none))
  | n + 1, .expr v => RenderWithin opString b n v
  | n + 1, .exprs v => loopElems (RenderWithin opString b n) v []
  | _ + 1, .range none => some .panics
  | _ + 1, .range (some v) =>
    if v.Inclusive then some (.returns ("[" ++ v.Min ++ ", " ++ v.Max ++ "]", none))
    else some (.returns ("(" ++ v.Min ++ ", " ++ v.Max ++ ")", none))
  | _ + 1, .column v =>
    if strings.Contains v " " then some (.returns ("\"" ++ v ++ "\"", none))
    else some (.returns (v, none))
  | _ + 1, .str v => some (.returns ("'" ++ v ++ "'", none))
  | _ + 1, .int v => some (.returns (toString v, none))
  | _ + 1, .bool v => some (.returns (toString v, none))

end

mutual

/-- The number of nested calls of `Render` and `serialize` that the walk of a
tree can reach, the call of `Render` on the tree included: the depth of the
tree, counting a node and an operand as one level each. -/
def callDepth : Option Expression → Nat
  | none => 1
  | some (.mk l _ r) => 1 + max (operandDepth l) (operandDepth r)

/-- The number of nested calls that `serialize` of an operand can reach. -/
def operandDepth : Operand → Nat
  | .expr v => 1 + callDepth v
  | .exprs v => 1 + elemsDepth v
  | _ => 1

/-- The largest `callDepth` among the elements of a sequence. -/
def elemsDepth : List (Option Expression) → Nat
  | [] => 0
  | e :: es => max (callDepth e) (elemsDepth es)

end

/-- The value of a string of decimal digits. -/
def decimalValue (cs : List Char) : Nat :=
  cs.foldl (fun acc c => 10 * acc + (c.toNat - '0'.toNat)) 0

/-- The decimal text of the number `n`: a non-empty string of decimal digits,
most significant first, whose value is `n` and which does not start with `0`
unless it is the text `0` itself. -/
def isDecimalText (n : Nat) (ds : List Char) : Prop :=
  (∀ c ∈ ds, c.isDigit = true) ∧ ds ≠ [] ∧ decimalValue ds = n ∧
    (ds = ['0'] ∨ ds.head? ≠ some '0')

/-! The shape of one `Render` step -/

/-- When the left operand fails, `Render` returns its error and the empty string. -/
theorem Render_left_err (opString : Operator → String) (b : Base)
    (L R : Operand) (op : Operator) (s : String) (err : Error)
    (hL : serialize opString b L = .returns (s, some err)) :
    Render opString b (some (.mk L op R)) = .returns ("", some err) := by
  simp [Render, hL]

/-- When the left operand succeeds and the right one fails, `Render` returns
the right operand's error and the empty string. -/
theorem Render_right_err (opString : Operator → String) (b : Base)
    (L R : Operand) (op : Operator) (l s : String) (err : Error)
    (hL : serialize opString b L = .returns (l, none))
    (hR : serialize opString b R = .returns (s, some err)) :
    Render opString b (some (.mk L op R)) = .returns ("", some err) := by
  simp [Render, hL, hR]

/-- When both operands succeed, `Render` is decided by the table lookup. -/
theorem Render_operands_ok (opString : Operator → String) (b : Base)
    (L R : Operand) (op : Operator) (l r : String)
    (hL : serialize opString b L = .returns (l, none))
    (hR : serialize opString b R = .returns (r, none)) :
    Render opString b (some (.mk L op R)) =
      match b.RenderFNs op with
      | none =>
        .returns ("", some ⟨"unable to render operator [" ++ opString op ++ "]"⟩)
      | some fn => .returns (fn l r) := by
  simp [Render, hL, hR]

/-- When the left operand panics, so does `Render`. -/
theorem Render_left_panics (opString : Operator → String) (b : Base)
    (L R : Operand) (op : Operator)
    (hL : serialize opString b L = .panics) :
    Render opString b (some (.mk L op R)) = .panics := by
  simp [Render, hL]

/-- When the left operand succeeds and the right one panics, so does `Render`. -/
theorem Render_right_panics (opString : Operator → String) (b : Base)
    (L R : Operand) (op : Operator) (l : String)
    (hL : serialize opString b L = .returns (l, none))
    (hR : serialize opString b R = .panics) :
    Render opString b (some (.mk L op R)) = .panics := by
  simp [Render, hL, hR]

/-- A leaf operand other than the nil range-boundary pointer always
serializes without error. -/
theorem serialize_leaf (opString : Operator → String) (b : Base) (o : Operand)
    (h : isLeaf o = true) (hn : isNilRange o = false) :
    ∃ s, serialize opString b o = .returns (s, none) := by
  cases o with
  | nil => exact ⟨"", by rw [serialize]⟩
  | expr v => simp [isLeaf] at h
  | exprs v => simp [isLeaf] at h
  | range v =>
    cases v with
    | none => simp [isNilRange] at hn
    | some v =>
      by_cases hi : v.Inclusive = true
      · exact ⟨_, by rw [serialize, if_pos hi]⟩
      · exact ⟨_, by rw [serialize, if_neg hi]⟩
  | column v =>
    by_cases hc : strings.Contains v " " = true
    · exact ⟨_, by rw [serialize, if_pos hc]⟩
    · exact ⟨_, by rw [serialize, if_neg hc]⟩
  | str v => exact ⟨_, by rw [serialize]⟩
  | int v => exact ⟨_, by rw [serialize]⟩
  | bool v => exact ⟨_, by rw [serialize]⟩

/-! Strings -/

/-- The accumulator of `String.intercalate` can be split at the front. -/
theorem intercalate_go_append (x acc sep : String) (l : List String) :
    String.intercalate.go (x ++ acc) sep l = x ++ String.intercalate.go acc sep l := by
  induction l generalizing acc with
  | nil => simp [String.intercalate.go]
  | cons a as ih =>
    simp only [String.intercalate.go]
    rw [String.append_assoc, String.append_assoc, ← String.append_assoc acc, ih]

/-- Joining at least two strings: the first, the separator, the rest joined. -/
theorem Join_cons_cons (a c : String) (l : List String) (sep : String) :
    strings.Join (a :: c :: l) sep = a ++ sep ++ strings.Join (c :: l) sep := by
  simp only [strings.Join, String.intercalate, String.intercalate.go]
  exact intercalate_go_append (a ++ sep) c sep l

/-- Looking for a one-character substring is looking for the character. -/
theorem any_tails_singleton (c : Char) (l : List Char) :
    (l.tails.any (fun t => [c].isPrefixOf t)) = true ↔ c ∈ l := by
  induction l with
  | nil => simp [List.isPrefixOf]
  | cons a as ih =>
    rw [List.tails, List.any_cons, Bool.or_eq_true, ih]
    simp [List.isPrefixOf]

/-- `strings.Contains v " "` tests for the space character U+0020. -/
theorem Contains_space (v : String) :
    strings.Contains v " " = true ↔ ' ' ∈ v.data :=
  any_tails_singleton ' ' v.data

/-- Wrapping in double quotes, character by character. -/
theorem quote_data (v : String) :
    "\"" ++ v ++ "\"" = String.mk ('"' :: (v.data ++ ['"'])) := by
  apply String.ext
  simp [String.data_append]

/-! The loop over a sequence operand -/

/-- When every element renders without error, the loop ends in the join of
the accumulator followed by the rendered elements. -/
theorem serializeElems_ok (opString : Operator → String) (b : Base)
    (es : List (Option Expression)) (ss : List String)
    (h : List.Forall₂ (fun e s => Render opString b e = .returns (s, none)) es ss) :
    ∀ strs, serializeElems opString b es strs
      = .returns (strings.Join (strs ++ ss) ", ", none) := by
  induction h with
  | nil => intro strs; simp [serializeElems]
  | cons he _ ih =>
    intro strs
    rw [serializeElems, he]
    simp only
    rw [ih, List.append_assoc, List.singleton_append]

/-- When the elements before `e` render without error and `e` fails, the loop
returns what `Render` returned for `e`, whatever follows `e`. -/
theorem serializeElems_err (opString : Operator → String) (b : Base)
    (pre : List (Option Expression)) (ss : List String)
    (h : List.Forall₂ (fun e s => Render opString b e = .returns (s, none)) pre ss)
    (e : Option Expression) (post : List (Option Expression))
    (s : String) (err : Error) (he : Render opString b e = .returns (s, some err)) :
    ∀ strs, serializeElems opString b (pre ++ e :: post) strs
      = .returns (s, some err) := by
  induction h with
  | nil => intro strs; simp [serializeElems, he]
  | cons hx _ ih =>
    intro strs
    rw [List.cons_append, serializeElems, hx]
    simp only
    rw [ih]

/-! Where errors come from -/

/-- An origin among some operators is an origin among more operators. -/
theorem ErrorOrigin.mono (opString : Operator → String) (b : Base)
    (ops ops2 : List Operator) (err : Error) (hsub : ∀ op ∈ ops, op ∈ ops2)
    (h : ErrorOrigin opString b ops err) : ErrorOrigin opString b ops2 err := by
  rcases h with ⟨op, hop, h1, h2⟩ | ⟨op, hop, fn, l, r, t, h1, h2⟩
  · exact Or.inl ⟨op, hsub op hop, h1, h2⟩
  · exact Or.inr ⟨op, hsub op hop, fn, l, r, t, h1, h2⟩

mutual

/-- Every error of `Render` has an origin among the operators of the tree. -/
theorem Render_error_origin (opString : Operator → String) (b : Base) :
    ∀ (e : Option Expression) (s : String) (err : Error),
      Render opString b e = .returns (s, some err) →
      ErrorOrigin opString b (operatorsOf e) err
  | none, s, err, h => by simp [Render] at h
  | some (.mk L op R), s, err, h => by
    cases hL : serialize opString b L with
    | panics =>
      rw [Render_left_panics opString b L R op hL] at h
      exact Outcome.noConfusion h
    | returns resL =>
      obtain ⟨l, _ | el⟩ := resL
      · cases hR : serialize opString b R with
        | panics =>
          rw [Render_right_panics opString b L R op l hL hR] at h
          exact Outcome.noConfusion h
        | returns resR =>
          obtain ⟨r, _ | er⟩ := resR
          · rw [Render_operands_ok opString b L R op l r hL hR] at h
            cases hfn : b.RenderFNs op with
            | none =>
              rw [hfn] at h
              refine Or.inl ⟨op, by simp [operatorsOf], hfn, ?_⟩
              have h2 := Outcome.returns.inj h
              simpa using (congrArg Prod.snd h2).symm
            | some fn =>
              rw [hfn] at h
              exact Or.inr ⟨op, by simp [operatorsOf], fn, l, r, s, hfn,
                Outcome.returns.inj h⟩
          · rw [Render_right_err opString b L R op l r er hL hR] at h
            have herr : er = err := by
              simpa using congrArg Prod.snd (Outcome.returns.inj h)
            subst herr
            exact ErrorOrigin.mono opString b _ _ _
              (fun x hx => by simp [operatorsOf, hx])
              (serialize_error_origin opString b R r er hR)
      · rw [Render_left_err opString b L R op l el hL] at h
        have herr : el = err := by
          simpa using congrArg Prod.snd (Outcome.returns.inj h)
        subst herr
        exact ErrorOrigin.mono opString b _ _ _
          (fun x hx => by simp [operatorsOf, hx])
          (serialize_error_origin opString b L l el hL)

/-- Every error of `serialize` has an origin among the operators below the
operand. -/
theorem serialize_error_origin (opString : Operator → String) (b : Base) :
    ∀ (o : Operand) (s : String) (err : Error),
      serialize opString b o = .returns (s, some err) →
      ErrorOrigin opString b (operandOperators o) err
  | .nil, s, err, h => by simp [serialize] at h
  | .expr v, s, err, h => by
    rw [serialize] at h
    rw [operandOperators]
    exact Render_error_origin opString b v s err h
  | .exprs v, s, err, h => by
    rw [serialize] at h
    rw [operandOperators]
    exact serializeElems_error_origin opString b v [] s err h
  | .range none, s, err, h => by simp [serialize] at h
  | .range (some v), s, err, h => by
    rw [serialize] at h
    split at h <;> simp at h
  | .column v, s, err, h => by
    rw [serialize] at h
    split at h <;> simp at h
  | .str v, s, err, h => by simp [serialize] at h
  | .int v, s, err, h => by simp [serialize] at h
  | .bool v, s, err, h => by simp [serialize] at h

/-- Every error of the loop over a sequence has an origin among the operators
of its elements. -/
theorem serializeElems_error_origin (opString : Operator → String) (b : Base) :
    ∀ (es : List (Option Expression)) (strs : List String) (s : String) (err : Error),
      serializeElems opString b es strs = .returns (s, some err) →
      ErrorOrigin opString b (elemsOperators es) err
  | [], strs, s, err, h => by simp [serializeElems] at h
  | e :: es, strs, s, err, h => by
    cases he : Render opString b e with
    | panics =>
      rw [serializeElems, he] at h
      exact Outcome.noConfusion h
    | returns res =>
      obtain ⟨t, _ | ee⟩ := res
      · rw [serializeElems, he] at h
        exact ErrorOrigin.mono opString b _ _ _
          (fun x hx => by simp [elemsOperators, hx])
          (serializeElems_error_origin opString b es (strs ++ [t]) s err h)
      · rw [serializeElems, he] at h
        have herr : ee = err := by
          simpa using congrArg Prod.snd (Outcome.returns.inj h)
        subst herr
        exact ErrorOrigin.mono opString b _ _ _
          (fun x hx => by simp [elemsOperators, hx])
          (Render_error_origin opString b e t ee he)

end

/-! Where panics come from -/

mutual

/-- A tree without a nil range-boundary pointer does not make `Render` panic. -/
theorem Render_no_panic (opString : Operator → String) (b : Base) :
    ∀ (e : Option Expression), nilRangeIn e = false →
      Render opString b e ≠ .panics
  | none, _ => by simp [Render]
  | some (.mk L op R), h => by
    have hL : nilRangeBelow L = false := by
      simp only [nilRangeIn, Bool.or_eq_false_iff] at h
      exact h.1
    have hR : nilRangeBelow R = false := by
      simp only [nilRangeIn, Bool.or_eq_false_iff] at h
      exact h.2
    have nL := serialize_no_panic opString b L hL
    have nR := serialize_no_panic opString b R hR
    cases hsL : serialize opString b L with
    | panics => exact absurd hsL nL
    | returns resL =>
      obtain ⟨l, _ | el⟩ := resL
      · cases hsR : serialize opString b R with
        | panics => exact absurd hsR nR
        | returns resR =>
          obtain ⟨r, _ | er⟩ := resR
          · rw [Render_operands_ok opString b L R op l r hsL hsR]
            cases b.RenderFNs op <;> exact fun hp => Outcome.noConfusion hp
          · rw [Render_right_err opString b L R op l r er hsL hsR]
            exact fun hp => Outcome.noConfusion hp
      · rw [Render_left_err opString b L R op l el hsL]
        exact fun hp => Outcome.noConfusion hp

/-- An operand without a nil range-boundary pointer does not make `serialize`
panic. -/
theorem serialize_no_panic (opString : Operator → String) (b : Base) :
    ∀ (o : Operand), nilRangeBelow o = false →
      serialize opString b o ≠ .panics
  | .nil, _ => by simp [serialize]
  | .expr v, h => by
    rw [serialize]
    rw [nilRangeBelow] at h
    exact Render_no_panic opString b v h
  | .exprs v, h => by
    rw [serialize]
    rw [nilRangeBelow] at h
    exact serializeElems_no_panic opString b v [] h
  | .range none, h => by simp [nilRangeBelow] at h
  | .range (some v), _ => by
    rw [serialize]
    split <;> exact fun hp => Outcome.noConfusion hp
  | .column v, _ => by
    rw [serialize]
    split <;> exact fun hp => Outcome.noConfusion hp
  | .str v, _ => by simp [serialize]
  | .int v, _ => by simp [serialize]
  | .bool v, _ => by simp [serialize]

/-- A sequence without a nil range-boundary pointer does not make the loop
panic. -/
theorem serializeElems_no_panic (opString : Operator → String) (b : Base) :
    ∀ (es : List (Option Expression)) (strs : List String),
      nilRangeAmong es = false →
      serializeElems opString b es strs ≠ .panics
  | [], strs, _ => by simp [serializeElems]
  | e :: es, strs, h => by
    have he : nilRangeIn e = false := by
      simp only [nilRangeAmong, Bool.or_eq_false_iff] at h
      exact h.1
    have hes : nilRangeAmong es = false := by
      simp only [nilRangeAmong, Bool.or_eq_false_iff] at h
      exact h.2
    have ne := Render_no_panic opString b e he
    cases hr : Render opString b e with
    | panics => exact absurd hr ne
    | returns res =>
      obtain ⟨t, _ | ee⟩ := res
      · rw [serializeElems, hr]
        exact serializeElems_no_panic opString b es (strs ++ [t]) hes
      · rw [serializeElems, hr]
        exact fun hp => Outcome.noConfusion hp

end

/-! Claims -/

/-- C1 (counterexample): with the empty table the root operator `Fuzzy` is
absent, yet the tree whose left operand is a `Boost` node fails with the
error naming `Boost`, not `Fuzzy`. -/
theorem Render_absent_root_names_child :
    emptyDriver.RenderFNs .Fuzzy = none ∧
    Render Operator.String emptyDriver
        (some (.mk (.expr (some (.mk .nil .Boost .nil))) .Fuzzy .nil))
      = .returns ("", some ⟨"unable to render operator [Boost]"⟩) ∧
    Render Operator.String emptyDriver
        (some (.mk (.expr (some (.mk .nil .Boost .nil))) .Fuzzy .nil))
      ≠ .returns ("", some ⟨"unable to render operator [Fuzzy]"⟩) :=
  ⟨rfl, by decide, by decide⟩

/-- C1 (amended): for every driver and every node whose operator is absent
from the table, if the two operands both serialize without error, `Render`
returns the empty string and the error `unable to render operator [<name>]`
naming the node's operator; if the left operand fails to serialize, `Render`
returns the left operand's error instead, and if the left operand serializes
and the right one fails, `Render` returns the right operand's error instead. -/
theorem Render_absent_operator (opString : Operator → String) (b : Base)
    (L R : Operand) (op : Operator) (habsent : b.RenderFNs op = none) :
    (∀ l r, serialize opString b L = .returns (l, none) →
      serialize opString b R = .returns (r, none) →
      Render opString b (some (.mk L op R)) =
        .returns ("", some ⟨"unable to render operator [" ++ opString op ++ "]"⟩)) ∧
    (∀ s err, serialize opString b L = .returns (s, some err) →
      Render opString b (some (.mk L op R)) = .returns ("", some err)) ∧
    (∀ l s err, serialize opString b L = .returns (l, none) →
      serialize opString b R = .returns (s, some err) →
      Render opString b (some (.mk L op R)) = .returns ("", some err)) := by
  refine ⟨fun l r hL hR => ?_, fun s err hL => Render_left_err opString b L R op s err hL,
    fun l s err hL hR => Render_right_err opString b L R op l s err hL hR⟩
  rw [Render_operands_ok opString b L R op l r hL hR, habsent]

/-- C1 (witness): with the empty table, `Fuzzy` over a column and a string
fails with the error naming `Fuzzy`; over a `Boost` node on the left it fails
with the error naming `Boost`; over a string on the left and a `Wild` node on
the right it fails with the error naming `Wild`. -/
theorem Render_absent_operator_witness :
    Render Operator.String emptyDriver (some (.mk (.column "a") .Fuzzy (.str "b")))
      = .returns ("", some ⟨"unable to render operator [Fuzzy]"⟩) ∧
    Render Operator.String emptyDriver
        (some (.mk (.expr (some (.mk .nil .Boost .nil))) .Fuzzy (.str "b")))
      = .returns ("", some ⟨"unable to render operator [Boost]"⟩) ∧
    Render Operator.String emptyDriver
        (some (.mk (.str "a") .Fuzzy (.expr (some (.mk .nil .Wild .nil)))))
      = .returns ("", some ⟨"unable to render operator [Wild]"⟩) :=
  ⟨(Render_absent_operator Operator.String emptyDriver (.column "a") (.str "b") .Fuzzy
      rfl).1 "a" "'b'" (by decide) (by decide),
   (Render_absent_operator Operator.String emptyDriver
      (.expr (some (.mk .nil .Boost .nil))) (.str "b") .Fuzzy rfl).2.1
      "" ⟨"unable to render operator [Boost]"⟩ (by decide),
   (Render_absent_operator Operator.String emptyDriver (.str "a")
      (.expr (some (.mk .nil .Wild .nil))) .Fuzzy rfl).2.2
      "'a'" "" ⟨"unable to render operator [Wild]"⟩ (by decide) (by decide)⟩

/-- C2: for every driver and every non-nil node whose operator has the entry
`fn` in the table and whose operands serialize without error to `l` and `r`,
`Render` returns exactly the pair `fn l r`. -/
theorem Render_found_verbatim (opString : Operator → String) (b : Base)
    (L R : Operand) (op : Operator) (fn : RenderFN) (l r : String)
    (hfn : b.RenderFNs op = some fn)
    (hL : serialize opString b L = .returns (l, none))
    (hR : serialize opString b R = .returns (r, none)) :
    Render opString b (some (.mk L op R)) = .returns (fn l r) := by
  rw [Render_operands_ok opString b L R op l r hL hR, hfn]

/-- C2 (witness): the failing `Literal` entry; its string and its error both
come back unchanged. -/
theorem Render_found_verbatim_witness :
    Render Operator.String failingDriver (some (.mk (.str "abc") .Literal .nil))
      = .returns ("'abc'", some ⟨"not translatable"⟩) :=
  Render_found_verbatim Operator.String failingDriver (.str "abc") .nil .Literal
    (fun l _ => (l, some ⟨"not translatable"⟩)) "'abc'" "" rfl (by decide) (by decide)

/-- C3: for every driver, whatever its table holds, `Render` of the nil
expression returns the empty string and no error. -/
theorem Render_nil (opString : Operator → String) (b : Base) :
    Render opString b none = .returns ("", none) := by
  simp [Render]

/-- C4: the first failure, left before right, is the one surfaced.  If the
left operand fails with `err`, `Render` returns `err` whatever the right
operand and the operator are (in the table or not); if the left operand
succeeds and the right one fails with `err`, `Render` returns `err` whatever
the operator is.  In particular an operand's error wins over the
unsupported-operator error of the node itself. -/
theorem Render_first_failure (opString : Operator → String) (b : Base)
    (L : Operand) :
    (∀ s err, serialize opString b L = .returns (s, some err) →
      ∀ op R, Render opString b (some (.mk L op R)) = .returns ("", some err)) ∧
    (∀ l R s err, serialize opString b L = .returns (l, none) →
      serialize opString b R = .returns (s, some err) →
      ∀ op, Render opString b (some (.mk L op R)) = .returns ("", some err)) :=
  ⟨fun s err hL op R => Render_left_err opString b L R op s err hL,
   fun l R s err hL hR op => Render_right_err opString b L R op l s err hL hR⟩

/-- C4 (witness): with the empty table, a failing `Boost` node as left operand
decides the result against a failing `Wild` node on the right, and a failing
`Wild` node as right operand of a healthy left operand decides it against the
absent operator `Fuzzy` of the node. -/
theorem Render_first_failure_witness :
    Render Operator.String emptyDriver
        (some (.mk (.expr (some (.mk .nil .Boost .nil))) .Fuzzy
          (.expr (some (.mk .nil .Wild .nil)))))
      = .returns ("", some ⟨"unable to render operator [Boost]"⟩) ∧
    Render Operator.String emptyDriver
        (some (.mk (.str "a") .Fuzzy (.expr (some (.mk .nil .Wild .nil)))))
      = .returns ("", some ⟨"unable to render operator [Wild]"⟩) :=
  ⟨(Render_first_failure Operator.String emptyDriver
      (.expr (some (.mk .nil .Boost .nil)))).1 "" ⟨"unable to render operator [Boost]"⟩
      (by decide) .Fuzzy (.expr (some (.mk .nil .Wild .nil))),
   (Render_first_failure Operator.String emptyDriver (.str "a")).2 "'a'"
      (.expr (some (.mk .nil .Wild .nil))) "" ⟨"unable to render operator [Wild]"⟩
      (by decide) (by decide) .Fuzzy⟩

/-- C5 (counterexample): the `Literal` entry of `failingDriver` returns its
left operand together with an error, and `Render` hands the pair on: a
non-nil error comes with the non-empty string `'abc'`. -/
theorem Render_error_with_text :
    Render Operator.String failingDriver (some (.mk (.str "abc") .Literal .nil))
      = .returns ("'abc'", some ⟨"not translatable"⟩) ∧
    (some (⟨"not translatable"⟩ : Error)) ≠ none ∧
    "'abc'" ≠ "" := by
  decide

/-- C5 (amended): for every driver and every tree, whenever `Render` returns
a non-nil error, the string alongside is empty, unless both operands of the
root serialized without error and the pair is the one the root operator's
render function returned for them, which `Render` passes on unchanged. -/
theorem Render_error_string (opString : Operator → String) (b : Base)
    (e : Option Expression) (s : String) (err : Error)
    (h : Render opString b e = .returns (s, some err)) :
    s = "" ∨
    ∃ x fn l r, e = some x ∧ b.RenderFNs x.Op = some fn ∧
      serialize opString b x.Left = .returns (l, none) ∧
      serialize opString b x.Right = .returns (r, none) ∧ fn l r = (s, some err) := by
  match e with
  | none => simp [Render] at h
  | some (.mk L op R) =>
    cases hL : serialize opString b L with
    | panics =>
      rw [Render_left_panics opString b L R op hL] at h
      exact Outcome.noConfusion h
    | returns resL =>
      obtain ⟨l, _ | el⟩ := resL
      · cases hR : serialize opString b R with
        | panics =>
          rw [Render_right_panics opString b L R op l hL hR] at h
          exact Outcome.noConfusion h
        | returns resR =>
          obtain ⟨r, _ | er⟩ := resR
          · rw [Render_operands_ok opString b L R op l r hL hR] at h
            cases hfn : b.RenderFNs op with
            | none =>
              rw [hfn] at h
              exact Or.inl (congrArg Prod.fst (Outcome.returns.inj h)).symm
            | some fn =>
              rw [hfn] at h
              exact Or.inr ⟨.mk L op R, fn, l, r, rfl, hfn, hL, hR,
                Outcome.returns.inj h⟩
          · rw [Render_right_err opString b L R op l r er hL hR] at h
            exact Or.inl (congrArg Prod.fst (Outcome.returns.inj h)).symm
      · rw [Render_left_err opString b L R op l el hL] at h
        exact Or.inl (congrArg Prod.fst (Outcome.returns.inj h)).symm

/-- C5 (witness): the error of `failingDriver` comes with the string `'abc'`,
which is not empty, and the pair is the one its `Literal` entry returned for
the serialized operands `'abc'` and the empty string. -/
theorem Render_error_string_witness :
    Render Operator.String failingDriver (some (.mk (.str "abc") .Literal .nil))
      = .returns ("'abc'", some ⟨"not translatable"⟩) ∧
    ("'abc'" = "" ∨
      ∃ x fn l r, some (Expression.mk (.str "abc") .Literal .nil) = some x ∧
        failingDriver.RenderFNs x.Op = some fn ∧
        serialize Operator.String failingDriver x.Left = .returns (l, none) ∧
        serialize Operator.String failingDriver x.Right = .returns (r, none) ∧
        fn l r = ("'abc'", some ⟨"not translatable"⟩)) :=
  ⟨by decide,
   Render_error_string Operator.String failingDriver
    (some (.mk (.str "abc") .Literal .nil)) "'abc'" ⟨"not translatable"⟩ (by decide)⟩

/-- C6 (counterexample): the render functions of `sampleDriver` never return
an error and the operators `And` and `Equals` of the tree are in its table,
yet `Render` does not return: the right operand of the first `Equals` node is
a nil `*expr.RangeBoundary`, and `serialize` panics on it. -/
theorem Render_nil_range_no_result :
    (∀ op fn l r, sampleDriver.RenderFNs op = some fn → (fn l r).2 = none) ∧
    (∀ op ∈ operatorsOf (some (.mk
        (.expr (some (.mk (.column "a") .Equals (.range none)))) .And
        (.expr (some (.mk (.column "b") .Equals (.str "2")))))),
      (sampleDriver.RenderFNs op).isSome = true) ∧
    Render Operator.String sampleDriver (some (.mk
        (.expr (some (.mk (.column "a") .Equals (.range none)))) .And
        (.expr (some (.mk (.column "b") .Equals (.str "2"))))))
      = .panics ∧
    ¬ ∃ s, Render Operator.String sampleDriver (some (.mk
        (.expr (some (.mk (.column "a") .Equals (.range none)))) .And
        (.expr (some (.mk (.column "b") .Equals (.str "2"))))))
      = .returns (s, none) := by
  refine ⟨?_, by decide, by decide, ?_⟩
  · intro op fn l r h
    cases op <;> simp [sampleDriver] at h <;> subst h <;> rfl
  · rintro ⟨s, hs⟩
    have hp : Render Operator.String sampleDriver (some (.mk
        (.expr (some (.mk (.column "a") .Equals (.range none)))) .And
        (.expr (some (.mk (.column "b") .Equals (.str "2"))))))
      = .panics := by decide
    rw [hp] at hs
    exact Outcome.noConfusion hs

/-- C6 (amended): every error that `Render` returns is the
unsupported-operator error of an operator of the tree that the table lacks, or
an error returned by the render function of an operator of the tree; hence,
for a driver whose render functions never return an error and a tree all of
whose operators, at every depth and inside sequence operands, are in the
table and none of whose operands, at any depth, is a nil
`*expr.RangeBoundary`, `Render` returns, and returns no error. -/
theorem Render_errors_from_table (opString : Operator → String) (b : Base)
    (e : Option Expression) :
    (∀ s err, Render opString b e = .returns (s, some err) →
      ErrorOrigin opString b (operatorsOf e) err) ∧
    ((∀ op fn l r, b.RenderFNs op = some fn → (fn l r).2 = none) →
      (∀ op ∈ operatorsOf e, (b.RenderFNs op).isSome = true) →
      nilRangeIn e = false →
      ∃ s, Render opString b e = .returns (s, none)) := by
  refine ⟨Render_error_origin opString b e, fun hfn hops hnil => ?_⟩
  cases h : Render opString b e with
  | panics => exact absurd h (Render_no_panic opString b e hnil)
  | returns res =>
    obtain ⟨s, _ | err⟩ := res
    · exact ⟨s, rfl⟩
    · exfalso
      rcases Render_error_origin opString b e s err h with
        ⟨op, hop, habsent, _⟩ | ⟨op, _, fn, l, r, t, hsome, hres⟩
      · have := hops op hop
        rw [habsent] at this
        exact Bool.noConfusion this
      · have := hfn op fn l r hsome
        rw [hres] at this
        exact Option.noConfusion this

/-- C6 (witness): `a IN (x, y) AND b = '2'`, a tree with a sequence operand
two levels down and no nil range boundary, rendered by `sampleDriver`. -/
theorem Render_errors_from_table_witness :
    Render Operator.String sampleDriver
      (some (.mk
        (.expr (some (.mk (.column "a") .In
          (.expr (some (.mk (.exprs [some (.mk (.column "x") .Literal .nil),
                                     some (.mk (.column "y") .Literal .nil)])
            .List .nil))))))
        .And
        (.expr (some (.mk (.column "b") .Equals (.str "2"))))))
      = .returns ("a IN (x, y) AND b = '2'", none) ∧
    ∃ s, Render Operator.String sampleDriver
      (some (.mk
        (.expr (some (.mk (.column "a") .In
          (.expr (some (.mk (.exprs [some (.mk (.column "x") .Literal .nil),
                                     some (.mk (.column "y") .Literal .nil)])
            .List .nil))))))
        .And
        (.expr (some (.mk (.column "b") .Equals (.str "2"))))))
      = .returns (s, none) :=
  ⟨by decide,
   (Render_errors_from_table Operator.String sampleDriver _).2
    (by
      intro op fn l r h
      cases op <;> simp [sampleDriver] at h <;> subst h <;> rfl)
    (by decide) (by decide)⟩

/-- C7 (counterexample): `Literal` is in the table of `sampleDriver` and both
operands of the node are leaves, a range boundary and nil; the range boundary
is the nil `*expr.RangeBoundary`, its serialization panics, and `Render` never
reaches the lookup. -/
theorem serialize_nil_range_panics :
    (sampleDriver.RenderFNs .Literal).isSome = true ∧
    isLeaf (.range none) = true ∧ isLeaf .nil = true ∧
    serialize Operator.String sampleDriver (.range none) = .panics ∧
    (¬ ∃ s, serialize Operator.String sampleDriver (.range none) = .returns (s, none)) ∧
    Render Operator.String sampleDriver (some (.mk (.range none) .Literal .nil))
      = .panics := by
  refine ⟨rfl, rfl, rfl, by decide, ?_, by decide⟩
  rintro ⟨s, hs⟩
  have hp : serialize Operator.String sampleDriver (.range none) = .panics := by decide
  rw [hp] at hs
  exact Outcome.noConfusion hs

/-- C7 (amended): for every operator that has an entry `fn` in the table and
every single-level tree using it whose operands are each nil, a column, a
range boundary that is not the nil pointer, or a scalar, both operands
serialize without error and `Render` returns what `fn` returns for them: the
lookup succeeds and its unsupported-operator error is not produced. -/
theorem Render_single_level (opString : Operator → String) (b : Base)
    (L R : Operand) (op : Operator) (fn : RenderFN)
    (hL : isLeaf L = true) (hR : isLeaf R = true)
    (hLn : isNilRange L = false) (hRn : isNilRange R = false)
    (hfn : b.RenderFNs op = some fn) :
    ∃ l r, serialize opString b L = .returns (l, none) ∧
      serialize opString b R = .returns (r, none) ∧
      Render opString b (some (.mk L op R)) = .returns (fn l r) := by
  obtain ⟨l, hl⟩ := serialize_leaf opString b L hL hLn
  obtain ⟨r, hr⟩ := serialize_leaf opString b R hR hRn
  refine ⟨l, r, hl, hr, ?_⟩
  rw [Render_operands_ok opString b L R op l r hl hr, hfn]

/-- C7 (witness): `Equals` over a column and a range boundary. -/
theorem Render_single_level_witness :
    ∃ l r, serialize Operator.String sampleDriver (.column "a") = .returns (l, none) ∧
      serialize Operator.String sampleDriver (.range (some ⟨"1", "10", true⟩))
        = .returns (r, none) ∧
      Render Operator.String sampleDriver
        (some (.mk (.column "a") .Equals (.range (some ⟨"1", "10", true⟩))))
        = .returns (l ++ " = " ++ r, none) :=
  Render_single_level Operator.String sampleDriver (.column "a")
    (.range (some ⟨"1", "10", true⟩)) .Equals (fun l r => (l ++ " = " ++ r, none))
    rfl rfl rfl rfl rfl

/-- C8: a sequence operand whose elements all render without error, to
`ss`, serializes to the elements of `ss` joined with `", "` in order (the
empty string for no element, the element itself for one, and the first
element, `", "` and the join of the rest otherwise); and when the elements
before some element render without error and that element fails, `serialize`
returns that element's result, whatever the later elements are. -/
theorem serialize_exprs (opString : Operator → String) (b : Base) :
    (∀ es ss, List.Forall₂ (fun e s => Render opString b e = .returns (s, none)) es ss →
      serialize opString b (.exprs es) = .returns (strings.Join ss ", ", none)) ∧
    (strings.Join [] ", " = "" ∧ (∀ s1, strings.Join [s1] ", " = s1) ∧
      ∀ s1 s2 rest, strings.Join (s1 :: s2 :: rest) ", "
        = s1 ++ ", " ++ strings.Join (s2 :: rest) ", ") ∧
    (∀ pre ss e post s err,
      List.Forall₂ (fun e s => Render opString b e = .returns (s, none)) pre ss →
      Render opString b e = .returns (s, some err) →
      serialize opString b (.exprs (pre ++ e :: post)) = .returns (s, some err)) := by
  refine ⟨fun es ss h => ?_, ⟨rfl, fun _ => rfl, fun s1 s2 rest => Join_cons_cons s1 s2 rest ", "⟩,
    fun pre ss e post s err h he => ?_⟩
  · rw [serialize, serializeElems_ok opString b es ss h, List.nil_append]
  · rw [serialize, serializeElems_err opString b pre ss h e post s err he]

/-- C8 (witness): two elements rendering to `a` and `b` give `a, b`; and a
`Fuzzy` element after `a` fails the sequence with its error, the element that
follows it playing no part. -/
theorem serialize_exprs_witness :
    serialize Operator.String sampleDriver
        (.exprs [some (.mk (.column "a") .Literal .nil),
                 some (.mk (.column "b") .Literal .nil)])
      = .returns ("a, b", none) ∧
    serialize Operator.String sampleDriver
        (.exprs ([some (.mk (.column "a") .Literal .nil)] ++
          some (.mk .nil .Fuzzy .nil) :: [some (.mk (.column "b") .Literal .nil)]))
      = .returns ("", some ⟨"unable to render operator [Fuzzy]"⟩) :=
  ⟨(serialize_exprs Operator.String sampleDriver).1
      [some (.mk (.column "a") .Literal .nil), some (.mk (.column "b") .Literal .nil)]
      ["a", "b"]
      (List.Forall₂.cons (by decide) (List.Forall₂.cons (by decide) List.Forall₂.nil)),
   (serialize_exprs Operator.String sampleDriver).2.2
      [some (.mk (.column "a") .Literal .nil)] ["a"] (some (.mk .nil .Fuzzy .nil))
      [some (.mk (.column "b") .Literal .nil)] "" ⟨"unable to render operator [Fuzzy]"⟩
      (List.Forall₂.cons (by decide) List.Forall₂.nil) (by decide)⟩

/-- C9 (counterexample): the column `a<TAB>b` contains a whitespace character,
the tab, and is returned unquoted. -/
theorem serialize_column_tab_unquoted :
    '\t' ∈ "a\tb".data ∧ '\t'.isWhitespace = true ∧
    serialize Operator.String emptyDriver (.column "a\tb")
      = .returns ("a\tb", none) := by
  decide

/-- C9 (amended): for every column whose text contains a space character
(U+0020), `serialize` returns the text wrapped in double quotes; for every
column whose text contains no space character, whatever other whitespace it
contains, `serialize` returns the text unquoted. -/
theorem serialize_column_quoting (opString : Operator → String) (b : Base)
    (v : String) :
    (' ' ∈ v.data →
      serialize opString b (.column v) = .returns ("\"" ++ v ++ "\"", none)) ∧
    (' ' ∉ v.data → serialize opString b (.column v) = .returns (v, none)) := by
  constructor
  · intro h
    rw [serialize, if_pos ((Contains_space v).2 h)]
  · intro h
    rw [serialize, if_neg (fun hc => h ((Contains_space v).1 hc))]

/-- C9 (witness): `first name` is quoted, `line<NEWLINE>break` is not. -/
theorem serialize_column_quoting_witness :
    serialize Operator.String emptyDriver (.column "first name")
      = .returns ("\"first name\"", none) ∧
    serialize Operator.String emptyDriver (.column "line\nbreak")
      = .returns ("line\nbreak", none) :=
  ⟨(serialize_column_quoting Operator.String emptyDriver "first name").1 (by decide),
   (serialize_column_quoting Operator.String emptyDriver "line\nbreak").2 (by decide)⟩

/-- C10: for every column whose text contains no space character, `serialize`
returns exactly the raw text and no error; for every column whose text
contains a space character it returns, with no error, a double quote, the
characters of the raw text unchanged (a double quote among them is not
escaped), and a double quote. -/
theorem serialize_column_space (opString : Operator → String) (b : Base)
    (v : String) :
    (' ' ∉ v.data → serialize opString b (.column v) = .returns (v, none)) ∧
    (' ' ∈ v.data →
      serialize opString b (.column v)
        = .returns (String.mk ('"' :: (v.data ++ ['"'])), none)) := by
  constructor
  · intro h
    rw [serialize, if_neg (fun hc => h ((Contains_space v).1 hc))]
  · intro h
    rw [serialize, if_pos ((Contains_space v).2 h), quote_data]

/-- C10 (witness): `status` stays as it is, `user name` yields `"user name"`,
and the double quote inside `a "b` is kept as it is. -/
theorem serialize_column_space_witness :
    serialize Operator.String emptyDriver (.column "status")
      = .returns ("status", none) ∧
    serialize Operator.String emptyDriver (.column "user name")
      = .returns ("\"user name\"", none) ∧
    serialize Operator.String emptyDriver (.column "a \"b")
      = .returns ("\"a \"b\"", none) :=
  ⟨(serialize_column_space Operator.String emptyDriver "status").1 (by decide),
   (serialize_column_space Operator.String emptyDriver "user name").2 (by decide),
   (serialize_column_space Operator.String emptyDriver "a \"b").2 (by decide)⟩

/-! Scalars, range boundaries and end-to-end rendering -/

/-- Wrapping in single quotes, character by character. -/
theorem single_quote_data (v : String) :
    "'" ++ v ++ "'" = String.mk ('\'' :: (v.data ++ ['\''])) := by
  apply String.ext
  simp [String.data_append]

/-- A column without a space character serializes to its text. -/
theorem serialize_column_plain (opString : Operator → String) (b : Base)
    (v : String) (h : strings.Contains v " " = false) :
    serialize opString b (.column v) = .returns (v, none) := by
  rw [serialize, h]
  rfl

/-- C11: for every string scalar `s`, the empty string and strings with single
quotes included, `serialize` returns, with no error, a single quote, the
characters of `s` unchanged, and a single quote: two bytes (and two
characters) more than `s`; `abc` yields `'abc'`. -/
theorem serialize_str (opString : Operator → String) (b : Base) (s : String) :
    serialize opString b (.str s) = .returns (String.mk ('\'' :: (s.data ++ ['\''])), none) ∧
    (String.mk ('\'' :: (s.data ++ ['\'']))).utf8ByteSize = s.utf8ByteSize + 2 ∧
    (String.mk ('\'' :: (s.data ++ ['\'']))).length = s.length + 2 ∧
    serialize opString b (.str "abc") = .returns ("'abc'", none) ∧
    serialize opString b (.str "") = .returns ("''", none) ∧
    serialize opString b (.str "it's") = .returns ("'it's'", none) := by
  have h : serialize opString b (.str s) = .returns (String.mk ('\'' :: (s.data ++ ['\''])), none) := by
    rw [serialize, single_quote_data]
  refine ⟨h, ?_, ?_, by rw [serialize]; rfl, by rw [serialize]; rfl, by rw [serialize]; rfl⟩
  · show String.utf8ByteSize (String.mk ('\'' :: (s.data ++ ['\'']))) = String.utf8ByteSize (String.mk s.data) + 2
    simp only [String.utf8ByteSize_mk, String.utf8Len_cons, String.utf8Len_append,
      String.utf8Len_nil]
    have hq : ('\'' : Char).utf8Size = 1 := by decide
    omega
  · show ('\'' :: (s.data ++ ['\''])).length = s.data.length + 2
    rw [List.length_cons, List.length_append, List.length_singleton]

/-- C12: for every range boundary with bounds `mn` and `mx`, `serialize`
returns, with no error, `[mn, mx]` when `Inclusive` is true and `(mn, mx)`
when it is false: the opening bracket, the characters of `mn` unchanged, a
comma and a space, the characters of `mx` unchanged, the closing bracket.
Bounds `1` and `10` yield `[1, 10]` and `(1, 10)`. -/
theorem serialize_range (opString : Operator → String) (b : Base)
    (mn mx : String) :
    serialize opString b (.range (some ⟨mn, mx, true⟩))
      = .returns (String.mk ('[' :: (mn.data ++ ',' :: ' ' :: (mx.data ++ [']']))), none) ∧
    serialize opString b (.range (some ⟨mn, mx, false⟩))
      = .returns (String.mk ('(' :: (mn.data ++ ',' :: ' ' :: (mx.data ++ [')']))), none) ∧
    serialize opString b (.range (some ⟨"1", "10", true⟩)) = .returns ("[1, 10]", none) ∧
    serialize opString b (.range (some ⟨"1", "10", false⟩)) = .returns ("(1, 10)", none) := by
  refine ⟨?_, ?_, by rw [serialize]; rfl, by rw [serialize]; rfl⟩
  · rw [serialize, if_pos rfl]
    refine congrArg (fun s => Outcome.returns (s, none)) ?_
    apply String.ext
    simp [String.data_append]
  · rw [serialize, if_neg (by simp)]
    refine congrArg (fun s => Outcome.returns (s, none)) ?_
    apply String.ext
    simp [String.data_append]

/-- C13: with a table that maps `Equals` to `l = r` and `And` to `l AND r`,
`Render` of `And(Equals(Column("a"),"1"), Equals(Column("b"),"2"))` returns
`a = '1' AND b = '2'` and no error; and a sub-expression operand always
serializes to exactly what `Render` returns for the sub-expression. -/
theorem Render_and_of_equals (opString : Operator → String) (b : Base)
    (hEq : b.RenderFNs .Equals = some (fun l r => (l ++ " = " ++ r, none)))
    (hAnd : b.RenderFNs .And = some (fun l r => (l ++ " AND " ++ r, none))) :
    Render opString b
        (some (.mk (.expr (some (.mk (.column "a") .Equals (.str "1")))) .And
          (.expr (some (.mk (.column "b") .Equals (.str "2"))))))
      = .returns ("a = '1' AND b = '2'", none) ∧
    ∀ v, serialize opString b (.expr v) = Render opString b v := by
  have h1 : Render opString b (some (.mk (.column "a") .Equals (.str "1")))
      = .returns ("a = '1'", none) := by
    rw [Render_operands_ok opString b _ _ _ "a" "'1'"
      (serialize_column_plain opString b "a" (by decide)) (by rw [serialize]; rfl), hEq]
    rfl
  have h2 : Render opString b (some (.mk (.column "b") .Equals (.str "2")))
      = .returns ("b = '2'", none) := by
    rw [Render_operands_ok opString b _ _ _ "b" "'2'"
      (serialize_column_plain opString b "b" (by decide)) (by rw [serialize]; rfl), hEq]
    rfl
  refine ⟨?_, fun v => by rw [serialize]⟩
  rw [Render_operands_ok opString b _ _ _ "a = '1'" "b = '2'"
    (by rw [serialize, h1]) (by rw [serialize, h2]), hAnd]
  rfl

/-- C13 (witness): `sampleDriver` has the two entries. -/
theorem Render_and_of_equals_witness :
    Render Operator.String sampleDriver
        (some (.mk (.expr (some (.mk (.column "a") .Equals (.str "1")))) .And
          (.expr (some (.mk (.column "b") .Equals (.str "2"))))))
      = .returns ("a = '1' AND b = '2'", none) :=
  (Render_and_of_equals Operator.String sampleDriver rfl rfl).1

/-- C14: with a table that maps `Equals` to `l = r`, `Render` of
`Equals(Column("status"), "active")` returns `status = 'active'` and no
error: the column serializes to `status`, unquoted, and the string to
`'active'`, single-quoted. -/
theorem Render_equals_status (opString : Operator → String) (b : Base)
    (hEq : b.RenderFNs .Equals = some (fun l r => (l ++ " = " ++ r, none))) :
    serialize opString b (.column "status") = .returns ("status", none) ∧
    serialize opString b (.str "active") = .returns ("'active'", none) ∧
    Render opString b (some (.mk (.column "status") .Equals (.str "active")))
      = .returns ("status = 'active'", none) := by
  have hl := serialize_column_plain opString b "status" (by decide)
  have hr : serialize opString b (.str "active") = .returns ("'active'", none) := by
    rw [serialize]; rfl
  refine ⟨hl, hr, ?_⟩
  rw [Render_operands_ok opString b _ _ _ "status" "'active'" hl hr, hEq]
  rfl

/-- C14 (witness): `sampleDriver` has the entry. -/
theorem Render_equals_status_witness :
    Render Operator.String sampleDriver
        (some (.mk (.column "status") .Equals (.str "active")))
      = .returns ("status = 'active'", none) :=
  (Render_equals_status Operator.String sampleDriver rfl).2.2

/-! The table `Shared` -/

/-- C15: with the table `Shared`, whatever the render functions are, the
entries of `MustNot` and of `Not` are the same function `basicWrap(Not)`,
and for all operands `L` and `R` the node `(MustNot, L, R)` renders to
exactly the string and error of the node `(Not, L, R)`. -/
theorem Render_MustNot_eq_Not (opString : Operator → String) (f : RenderFuncs)
    (L R : Operand) :
    Shared f .MustNot = some (f.basicWrap .Not) ∧
    Shared f .Not = some (f.basicWrap .Not) ∧
    Render opString ⟨Shared f⟩ (some (.mk L .MustNot R))
      = Render opString ⟨Shared f⟩ (some (.mk L .Not R)) := by
  refine ⟨rfl, rfl, ?_⟩
  simp only [Render, Shared]

/-- C17: a nil operand serializes to the empty string with no error; hence,
for an operator with the entry `fn` in the table, a node whose left operand is
nil fails only with the error (or the panic) of its right operand and
otherwise renders to `fn "" r`, a node whose right operand is nil fails only
with the error (or the panic) of its left operand and otherwise renders to
`fn l ""`, and a node with both operands nil renders to `fn "" ""`: the render
function is only ever called with the empty string in the place of the absent
operand. -/
theorem Render_nil_operand (opString : Operator → String) (b : Base)
    (op : Operator) (fn : RenderFN) (hfn : b.RenderFNs op = some fn) :
    serialize opString b .nil = .returns ("", none) ∧
    (∀ R, Render opString b (some (.mk .nil op R)) =
      match serialize opString b R with
      | .panics => .panics
      | .returns (_, some err) => .returns ("", some err)
      | .returns (r, none) => .returns (fn "" r)) ∧
    (∀ L, Render opString b (some (.mk L op .nil)) =
      match serialize opString b L with
      | .panics => .panics
      | .returns (_, some err) => .returns ("", some err)
      | .returns (l, none) => .returns (fn l "")) ∧
    Render opString b (some (.mk .nil op .nil)) = .returns (fn "" "") := by
  have hnil : serialize opString b .nil = .returns ("", none) := by rw [serialize]
  refine ⟨hnil, fun R => ?_, fun L => ?_, ?_⟩
  · cases hR : serialize opString b R with
    | panics => rw [Render_right_panics opString b _ _ _ "" hnil hR]
    | returns res =>
      obtain ⟨r, _ | er⟩ := res
      · rw [Render_operands_ok opString b _ _ _ "" r hnil hR, hfn]
      · rw [Render_right_err opString b _ _ _ "" r er hnil hR]
  · cases hL : serialize opString b L with
    | panics => rw [Render_left_panics opString b _ _ _ hL]
    | returns res =>
      obtain ⟨l, _ | el⟩ := res
      · rw [Render_operands_ok opString b _ _ _ l "" hL hnil, hfn]
      · rw [Render_left_err opString b _ _ _ l el hL]
  · rw [Render_operands_ok opString b _ _ _ "" "" hnil hnil, hfn]

/-- C17 (witness): `Literal` with the right operand absent, `Equals` with the
left operand absent, and `Literal` with no operand, rendered by
`sampleDriver`. -/
theorem Render_nil_operand_witness :
    Render Operator.String sampleDriver (some (.mk (.str "a") .Literal .nil))
      = .returns ("'a'", none) ∧
    Render Operator.String sampleDriver (some (.mk .nil .Equals (.str "a")))
      = .returns (" = 'a'", none) ∧
    Render Operator.String sampleDriver (some (.mk .nil .Literal .nil))
      = .returns ("", none) :=
  ⟨(Render_nil_operand Operator.String sampleDriver .Literal
      (fun l _ => (l, none)) rfl).2.2.1 (.str "a"),
   (Render_nil_operand Operator.String sampleDriver .Equals
      (fun l r => (l ++ " = " ++ r, none)) rfl).2.1 (.str "a"),
   (Render_nil_operand Operator.String sampleDriver .Literal
      (fun l _ => (l, none)) rfl).2.2.2⟩

/-- C19: `Shared` has an entry for each of the seventeen operators of
`sharedOperators` and none for `Fuzzy` and `Boost`; so a driver that uses
`Shared` as it is returns the unable-to-render error of the root operator on
every tree whose root operator is `Fuzzy` or `Boost` and whose operands
serialize without error, and at a node that carries one of the seventeen
operators and whose operands serialize without error it returns what the
operator's entry returns, the lookup having succeeded. -/
theorem Shared_entries (opString : Operator → String) (f : RenderFuncs) :
    (∀ op, op ∈ sharedOperators ↔ (Shared f op).isSome = true) ∧
    sharedOperators.length = 17 ∧ sharedOperators.Nodup ∧
    Shared f .Fuzzy = none ∧ Shared f .Boost = none ∧
    (∀ op L R l r, op = .Fuzzy ∨ op = .Boost →
      serialize opString ⟨Shared f⟩ L = .returns (l, none) →
      serialize opString ⟨Shared f⟩ R = .returns (r, none) →
      Render opString ⟨Shared f⟩ (some (.mk L op R))
        = .returns ("", some ⟨"unable to render operator [" ++ opString op ++ "]"⟩)) ∧
    (∀ op L R l r, op ∈ sharedOperators →
      serialize opString ⟨Shared f⟩ L = .returns (l, none) →
      serialize opString ⟨Shared f⟩ R = .returns (r, none) →
      ∃ fn, Shared f op = some fn ∧
        Render opString ⟨Shared f⟩ (some (.mk L op R)) = .returns (fn l r)) := by
  have hiff : ∀ op, op ∈ sharedOperators ↔ (Shared f op).isSome = true := by
    intro op
    cases op <;> simp [sharedOperators, Shared]
  refine ⟨hiff, rfl, by decide, rfl, rfl, ?_, ?_⟩
  · intro op L R l r hop hL hR
    rw [Render_operands_ok opString ⟨Shared f⟩ L R op l r hL hR]
    rcases hop with rfl | rfl <;> rfl
  · intro op L R l r hop hL hR
    have hsome := (hiff op).1 hop
    cases hfn : Shared f op with
    | none => rw [hfn] at hsome; exact Bool.noConfusion hsome
    | some fn =>
      refine ⟨fn, rfl, ?_⟩
      rw [Render_operands_ok opString ⟨Shared f⟩ L R op l r hL hR]
      show (match Shared f op with
        | none =>
          Outcome.returns
            ("", some ⟨"unable to render operator [" ++ opString op ++ "]"⟩)
        | some fn => Outcome.returns (fn l r)) = Outcome.returns (fn l r)
      rw [hfn]

/-- C19 (witness): with `Shared` over `echoFuncs`, `Fuzzy` over a column and a
string fails with the error naming `Fuzzy`, and `Like` over the same operands
is rendered by the entry `like`. -/
theorem Shared_entries_witness :
    Render Operator.String ⟨Shared echoFuncs⟩
        (some (.mk (.column "a") .Fuzzy (.str "b")))
      = .returns ("", some ⟨"unable to render operator [Fuzzy]"⟩) ∧
    ∃ fn, Shared echoFuncs .Like = some fn ∧
      Render Operator.String ⟨Shared echoFuncs⟩
        (some (.mk (.column "a") .Like (.str "b"))) = .returns (fn "a" "'b'") :=
  ⟨(Shared_entries Operator.String echoFuncs).2.2.2.2.2.1 .Fuzzy (.column "a") (.str "b")
      "a" "'b'" (Or.inl rfl) (by decide) (by decide),
   (Shared_entries Operator.String echoFuncs).2.2.2.2.2.2 .Like (.column "a") (.str "b")
      "a" "'b'" (by decide) (by decide) (by decide)⟩

/-! Integers and booleans -/

/-- The character of a digit below ten is a decimal digit. -/
theorem digitChar_isDigit (m : Nat) (h : m < 10) : (Nat.digitChar m).isDigit = true := by
  interval_cases m <;> decide

/-- The character of a digit below ten has that digit as value. -/
theorem digitChar_value (m : Nat) (h : m < 10) :
    (Nat.digitChar m).toNat - '0'.toNat = m := by
  interval_cases m <;> decide

/-- Appending one digit multiplies the value by ten and adds the digit. -/
theorem decimalValue_append_singleton (cs : List Char) (c : Char) :
    decimalValue (cs ++ [c]) = 10 * decimalValue cs + (c.toNat - '0'.toNat) := by
  simp [decimalValue, List.foldl_append]

/-- The digits are produced in front of the accumulator. -/
theorem toDigitsCore_append (fuel : Nat) :
    ∀ (n : Nat) (ds : List Char),
      Nat.toDigitsCore 10 fuel n ds = Nat.toDigitsCore 10 fuel n [] ++ ds := by
  induction fuel with
  | zero => intro n ds; simp [Nat.toDigitsCore]
  | succ fuel ih =>
    intro n ds
    simp only [Nat.toDigitsCore]
    split
    · simp
    · rw [ih (n / 10) (Nat.digitChar (n % 10) :: ds), ih (n / 10) [Nat.digitChar (n % 10)]]
      simp

/-- A decimal digit has a code between 48 and 57. -/
theorem isDigit_toNat (c : Char) (h : c.isDigit = true) :
    48 ≤ c.toNat ∧ c.toNat ≤ 57 := by
  simp only [Char.isDigit, Bool.and_eq_true, decide_eq_true_eq] at h
  have h1 : (48 : UInt32).toNat ≤ c.val.toNat := h.1
  have h2 : c.val.toNat ≤ (57 : UInt32).toNat := h.2
  exact ⟨h1, h2⟩

/-- Two decimal digits of the same value are the same character. -/
theorem digit_eq_of_value (c d : Char) (hc : c.isDigit = true) (hd : d.isDigit = true)
    (h : c.toNat - '0'.toNat = d.toNat - '0'.toNat) : c = d := by
  have h0 : '0'.toNat = 48 := rfl
  have := isDigit_toNat c hc
  have := isDigit_toNat d hd
  have hn : c.toNat = d.toNat := by omega
  apply Char.ext
  apply UInt32.ext
  exact hn

/-- Reading further digits does not decrease the value read so far. -/
theorem foldl_digits_ge (cs : List Char) :
    ∀ a : Nat, a ≤ cs.foldl (fun acc c => 10 * acc + (c.toNat - '0'.toNat)) a := by
  induction cs with
  | nil => intro a; exact Nat.le_refl a
  | cons c cs ih =>
    intro a
    rw [List.foldl_cons]
    exact Nat.le_trans (by omega) (ih _)

/-- A digit string that does not start with `0` has a positive value. -/
theorem decimalValue_pos (ds : List Char) (hd : ∀ c ∈ ds, c.isDigit = true)
    (hne : ds ≠ []) (h0 : ds.head? ≠ some '0') : 0 < decimalValue ds := by
  cases ds with
  | nil => exact absurd rfl hne
  | cons c cs =>
    have hc := hd c (List.mem_cons_self c cs)
    have hr := isDigit_toNat c hc
    have hz : '0'.toNat = 48 := rfl
    have hcne : c.toNat ≠ 48 := by
      intro heq
      apply h0
      have : c = '0' := digit_eq_of_value c '0' hc (by decide) (by omega)
      rw [this]
      rfl
    have hge := foldl_digits_ge cs (10 * 0 + (c.toNat - '0'.toNat))
    simp only [decimalValue, List.foldl_cons]
    omega

/-- The decimal text of a number is unique. -/
theorem isDecimalText_unique :
    ∀ (n : Nat) (ds ds2 : List Char),
      isDecimalText n ds → isDecimalText n ds2 → ds = ds2 := by
  intro n
  induction n using Nat.strong_induction_on with
  | _ n ih =>
    intro ds ds2 h1 h2
    obtain ⟨hd1, hne1, hv1, hz1⟩ := h1
    obtain ⟨hd2, hne2, hv2, hz2⟩ := h2
    rcases List.eq_nil_or_concat ds with hnil | ⟨xs, d, rfl⟩
    · exact absurd hnil hne1
    rcases List.eq_nil_or_concat ds2 with hnil | ⟨ys, e, rfl⟩
    · exact absurd hnil hne2
    simp only [List.concat_eq_append] at hd1 hne1 hv1 hz1 hd2 hne2 hv2 hz2 ⊢
    rw [decimalValue_append_singleton] at hv1 hv2
    have hdd := isDigit_toNat d (hd1 d (by simp))
    have hee := isDigit_toNat e (hd2 e (by simp))
    have hz : '0'.toNat = 48 := rfl
    have hde : d = e :=
      digit_eq_of_value d e (hd1 d (by simp)) (hd2 e (by simp)) (by omega)
    have hval : decimalValue xs = decimalValue ys := by omega
    have hxs : ∀ c ∈ xs, c.isDigit = true := fun c hc => hd1 c (by simp [hc])
    have hys : ∀ c ∈ ys, c.isDigit = true := fun c hc => hd2 c (by simp [hc])
    have front : ∀ (zs : List Char) (z : Char), zs ≠ [] →
        (zs ++ [z] = ['0'] ∨ (zs ++ [z]).head? ≠ some '0') → zs.head? ≠ some '0' := by
      intro zs z hzs hor
      cases zs with
      | nil => exact absurd rfl hzs
      | cons a as =>
        rcases hor with h | h
        · simp at h
        · simpa using h
    subst hde
    have hempty : decimalValue ([] : List Char) = 0 := rfl
    by_cases hx : xs = []
    · by_cases hy : ys = []
      · rw [hx, hy]
      · exfalso
        have := decimalValue_pos ys hys hy (front ys d hy hz2)
        rw [hx, hempty] at hval
        omega
    · by_cases hy : ys = []
      · exfalso
        have := decimalValue_pos xs hxs hx (front xs d hx hz1)
        rw [hy, hempty] at hval
        omega
      · have hpos := decimalValue_pos xs hxs hx (front xs d hx hz1)
        have hlt : decimalValue xs < n := by omega
        have := ih (decimalValue xs) hlt xs ys
          ⟨hxs, hx, rfl, Or.inr (front xs d hx hz1)⟩
          ⟨hys, hy, hval.symm, Or.inr (front ys d hy hz2)⟩
        rw [this]

/-- A digit below ten other than zero is not written `0`. -/
theorem digitChar_ne_zero (m : Nat) (h : m < 10) (h0 : m ≠ 0) :
    Nat.digitChar m ≠ '0' := by
  interval_cases m <;> first | exact absurd rfl h0 | decide

/-- With enough fuel the digits of `n` are the decimal text of `n`. -/
theorem toDigitsCore_spec (fuel : Nat) :
    ∀ n, n < fuel → isDecimalText n (Nat.toDigitsCore 10 fuel n []) := by
  induction fuel with
  | zero => intro n h; omega
  | succ fuel ih =>
    intro n h
    have hd : n % 10 < 10 := Nat.mod_lt n (by decide)
    simp only [Nat.toDigitsCore]
    split
    · rename_i h0
      have hn : n % 10 = n := by omega
      refine ⟨?_, by simp, ?_, ?_⟩
      · intro c hc
        rw [List.mem_singleton] at hc
        rw [hc]
        exact digitChar_isDigit _ hd
      · have := decimalValue_append_singleton [] (Nat.digitChar (n % 10))
        rw [List.nil_append] at this
        rw [this, digitChar_value _ hd]
        simp only [decimalValue, List.foldl_nil]
        omega
      · by_cases hz : n = 0
        · left
          rw [hz]
          rfl
        · right
          rw [hn]
          intro hh
          have hc : Nat.digitChar n = '0' := by simpa using hh
          exact digitChar_ne_zero n (by omega) hz hc
    · rename_i h0
      have hlt : n / 10 < fuel := by omega
      obtain ⟨h1, h2, h3, h4⟩ := ih (n / 10) hlt
      rw [toDigitsCore_append]
      refine ⟨?_, by simp, ?_, ?_⟩
      · intro c hc
        rw [List.mem_append, List.mem_singleton] at hc
        rcases hc with hc | hc
        · exact h1 c hc
        · rw [hc]
          exact digitChar_isDigit _ hd
      · rw [decimalValue_append_singleton, h3, digitChar_value _ hd]
        omega
      · right
        have hhead : (Nat.toDigitsCore 10 fuel (n / 10) [] ++ [Nat.digitChar (n % 10)]).head?
            = (Nat.toDigitsCore 10 fuel (n / 10) []).head? := by
          cases hxs : Nat.toDigitsCore 10 fuel (n / 10) [] with
          | nil => exact absurd hxs h2
          | cons a as => rfl
        rw [hhead]
        rcases h4 with h4 | h4
        · exfalso
          rw [h4] at h3
          have hv : decimalValue ['0'] = 0 := by decide
          rw [hv] at h3
          exact h0 h3.symm
        · exact h4

/-- C16: an integer or boolean operand serializes, with no error, to the
text of its default format, unquoted: a natural number `n` to its decimal
text (the one non-empty string of decimal digits of value `n` without a
leading zero, `0` for zero), a negative integer to a minus sign followed by
the decimal text of its absolute value, `true` to `true` and `false` to
`false`; `5` yields `5`, `-3` yields `-3`, `0` yields `0`, `7` yields `7` and
`100` yields `100`. -/
theorem serialize_scalar (opString : Operator → String) (b : Base) :
    (∀ n : Nat, ∃ ds,
      serialize opString b (.int (Int.ofNat n)) = .returns (String.mk ds, none) ∧
      isDecimalText n ds ∧ ∀ ds2, isDecimalText n ds2 → ds2 = ds) ∧
    (∀ n : Nat, ∃ ds,
      serialize opString b (.int (Int.negSucc n))
        = .returns (String.mk ('-' :: ds), none) ∧
      isDecimalText (n + 1) ds ∧ ∀ ds2, isDecimalText (n + 1) ds2 → ds2 = ds) ∧
    serialize opString b (.bool true) = .returns ("true", none) ∧
    serialize opString b (.bool false) = .returns ("false", none) ∧
    serialize opString b (.int 5) = .returns ("5", none) ∧
    serialize opString b (.int (-3)) = .returns ("-3", none) ∧
    serialize opString b (.int 0) = .returns ("0", none) ∧
    serialize opString b (.int 7) = .returns ("7", none) ∧
    serialize opString b (.int 100) = .returns ("100", none) := by
  refine ⟨fun n => ?_, fun n => ?_, by rw [serialize]; rfl, by rw [serialize]; rfl,
    by rw [serialize]; rfl, by rw [serialize]; rfl, by rw [serialize]; rfl,
    by rw [serialize]; rfl, by rw [serialize]; rfl⟩
  · have h := toDigitsCore_spec (n + 1) n (Nat.lt_succ_self n)
    exact ⟨Nat.toDigitsCore 10 (n + 1) n [], by rw [serialize]; rfl, h,
      fun ds2 h2 => isDecimalText_unique n ds2 _ h2 h⟩
  · have h := toDigitsCore_spec (n + 1 + 1) (n + 1) (Nat.lt_succ_self _)
    exact ⟨Nat.toDigitsCore 10 (n + 1 + 1) (n + 1) [], by rw [serialize]; rfl, h,
      fun ds2 h2 => isDecimalText_unique (n + 1) ds2 _ h2 h⟩

/-! Termination and recursion depth -/

mutual

/-- With a stack of at least `callDepth e` calls, `Render` returns. -/
theorem RenderWithin_ok (opString : Operator → String) (b : Base) :
    ∀ (e : Option Expression) (n : Nat), callDepth e ≤ n →
      RenderWithin opString b n e = some (Render opString b e)
  | none, n, h => by
    cases n with
    | zero => simp [callDepth] at h
    | succ n => simp [RenderWithin, Render]
  | some (.mk L op R), n, h => by
    cases n with
    | zero => simp [callDepth] at h
    | succ n =>
      have hL : operandDepth L ≤ n := by
        simp only [callDepth] at h
        omega
      have hR : operandDepth R ≤ n := by
        simp only [callDepth] at h
        omega
      rw [RenderWithin, serializeWithin_ok opString b L n hL,
        serializeWithin_ok opString b R n hR, Render]
      cases serialize opString b L with
      | panics => rfl
      | returns resL =>
        obtain ⟨l, _ | el⟩ := resL
        · cases serialize opString b R with
          | panics => rfl
          | returns resR =>
            obtain ⟨r, _ | er⟩ := resR
            · cases b.RenderFNs op <;> rfl
            · rfl
        · rfl

/-- With a stack of at least `operandDepth o` calls, `serialize` returns. -/
theorem serializeWithin_ok (opString : Operator → String) (b : Base) :
    ∀ (o : Operand) (n : Nat), operandDepth o ≤ n →
      serializeWithin opString b n o = some (serialize opString b o)
  | .nil, n, h => by
    cases n with
    | zero => simp [operandDepth] at h
    | succ n => simp [serializeWithin, serialize]
  | .expr v, n, h => by
    cases n with
    | zero => simp [operandDepth] at h
    | succ n =>
      have hv : callDepth v ≤ n := by
        simp only [operandDepth] at h
        omega
      rw [serializeWithin, serialize, RenderWithin_ok opString b v n hv]
  | .exprs v, n, h => by
    cases n with
    | zero => simp [operandDepth] at h
    | succ n =>
      have hv : elemsDepth v ≤ n := by
        simp only [operandDepth] at h
        omega
      rw [serializeWithin, serialize, loopElems_ok opString b v n [] hv]
  | .range none, n, h => by
    cases n with
    | zero => simp [operandDepth] at h
    | succ n => simp [serializeWithin, serialize]
  | .range (some v), n, h => by
    cases n with
    | zero => simp [operandDepth] at h
    | succ n =>
      rw [serializeWithin, serialize]
      split <;> rfl
  | .column v, n, h => by
    cases n with
    | zero => simp [operandDepth] at h
    | succ n =>
      rw [serializeWithin, serialize]
      split <;> rfl
  | .str v, n, h => by
    cases n with
    | zero => simp [operandDepth] at h
    | succ n => simp [serializeWithin, serialize]
  | .int v, n, h => by
    cases n with
    | zero => simp [operandDepth] at h
    | succ n => simp [serializeWithin, serialize]
  | .bool v, n, h => by
    cases n with
    | zero => simp [operandDepth] at h
    | succ n => simp [serializeWithin, serialize]

/-- With a stack of at least `elemsDepth es` calls for the elements, the loop
over a sequence returns. -/
theorem loopElems_ok (opString : Operator → String) (b : Base) :
    ∀ (es : List (Option Expression)) (n : Nat) (strs : List String),
      elemsDepth es ≤ n →
      loopElems (RenderWithin opString b n) es strs
        = some (serializeElems opString b es strs)
  | [], n, strs, h => by simp [loopElems, serializeElems]
  | e :: es, n, strs, h => by
    have he : callDepth e ≤ n := by
      simp only [elemsDepth] at h
      omega
    have hes : elemsDepth es ≤ n := by
      simp only [elemsDepth] at h
      omega
    rw [loopElems, RenderWithin_ok opString b e n he, serializeElems]
    cases Render opString b e with
    | panics => rfl
    | returns res =>
      obtain ⟨s, _ | err⟩ := res
      · exact loopElems_ok opString b es n (strs ++ [s]) hes
      · rfl

end

/-- C18: `Render` and `serialize` terminate on every tree, sequence operands
nested to any depth included: they are total functions of the tree, and run
with a stack of `n` nested calls they return their result whenever `n` is at
least the depth of the tree (`callDepth`, `operandDepth`), so the recursion
depth is bounded by the depth of the tree. -/
theorem Render_terminates (opString : Operator → String) (b : Base) :
    (∀ e n, callDepth e ≤ n →
      RenderWithin opString b n e = some (Render opString b e)) ∧
    (∀ o n, operandDepth o ≤ n →
      serializeWithin opString b n o = some (serialize opString b o)) ∧
    (∀ e, ∃ res, RenderWithin opString b (callDepth e) e = some res) ∧
    (∀ o, ∃ res, serializeWithin opString b (operandDepth o) o = some res) :=
  ⟨RenderWithin_ok opString b, serializeWithin_ok opString b,
   fun e => ⟨_, RenderWithin_ok opString b e _ (Nat.le_refl _)⟩,
   fun o => ⟨_, serializeWithin_ok opString b o _ (Nat.le_refl _)⟩⟩

/-- C18 (witness): `a IN (x, y) AND b = '2'`, whose sequence operand lies
three operands down, has depth 8 and is rendered within a stack of 8 calls;
a stack of 7 calls is exceeded. -/
theorem Render_terminates_witness :
    callDepth (some (.mk
        (.expr (some (.mk (.column "a") .In
          (.expr (some (.mk (.exprs [some (.mk (.column "x") .Literal .nil),
                                     some (.mk (.column "y") .Literal .nil)])
            .List .nil))))))
        .And
        (.expr (some (.mk (.column "b") .Equals (.str "2")))))) = 8 ∧
    RenderWithin Operator.String sampleDriver 8 (some (.mk
        (.expr (some (.mk (.column "a") .In
          (.expr (some (.mk (.exprs [some (.mk (.column "x") .Literal .nil),
                                     some (.mk (.column "y") .Literal .nil)])
            .List .nil))))))
        .And
        (.expr (some (.mk (.column "b") .Equals (.str "2"))))))
      = some (.returns ("a IN (x, y) AND b = '2'", none)) ∧
    RenderWithin Operator.String sampleDriver 7 (some (.mk
        (.expr (some (.mk (.column "a") .In
          (.expr (some (.mk (.exprs [some (.mk (.column "x") .Literal .nil),
                                     some (.mk (.column "y") .Literal .nil)])
            .List .nil))))))
        .And
        (.expr (some (.mk (.column "b") .Equals (.str "2"))))))
      = none :=
  ⟨by decide,
   (Render_terminates Operator.String sampleDriver).1 _ 8 (by decide),
   by decide⟩

end driver
